import Mathlib

/-!
Verification of the `catbox_async_uploader` client library
(`catbox_async_uploader/core.py`, `enums.py`, `exceptions.py`).

The HTTP layer is modelled by an explicit outcome for each request
(`HttpOutcome`): the remote either answers with a status and a body, or the
request raises one of the transport exceptions that `aiohttp`/`asyncio` can
raise.  Each client operation is embedded as a pure function from its
arguments and the request outcome to a result of type `Except PyExc α`
together with the list of requests it issued (so "no network call was made"
is the statement that this list is empty).  Album uploads additionally
return the number of inter-chunk sleeps performed.

Python exceptions are modelled by the inductive `PyExc`, covering the
library's own exception classes (`exceptions.py`), plain `Exception`, the
raw `asyncio.TimeoutError`, and the `aiohttp` client exceptions; each
operation's `try/except` clauses are embedded as a total handler function
applied to the exception escaping the `try` body, following the order and
the class hierarchy of the `except` clauses in the source.
-/

/-- Exceptions that can propagate out of an operation.  The first five
constructors are the library's own classes from `exceptions.py`, all
deriving from `CatboxError`; the rest are the foreign exceptions the code
interacts with: plain `Exception`, `asyncio.TimeoutError`, and the
`aiohttp` client errors (`ClientConnectionError`, `ClientResponseError`,
other `ClientError`). -/
inductive PyExc where
  | catboxError (msg : String)
  | catboxFileNotFoundError (msg : String)
  | catboxTimeoutError (msg : String)
  | catboxConnectionError (msg : String)
  | catboxHTTPError (msg : String)
  | plainExc (msg : String)
  | asyncioTimeout
  | aioConnError (msg : String)
  | aioRespError (msg : String)
  | aioClientError (msg : String)
  deriving DecidableEq, Repr

/-- The closed error taxonomy of `exceptions.py`: exceptions that are
instances of the base class `CatboxError`. -/
def in_catbox_taxonomy : PyExc → Bool
  | .catboxError _ => true
  | .catboxFileNotFoundError _ => true
  | .catboxTimeoutError _ => true
  | .catboxConnectionError _ => true
  | .catboxHTTPError _ => true
  | _ => false

/-- Outcome of one HTTP POST: either a response with a status code and a
plain-text body, or one of the exceptions the request machinery can raise
(`asyncio.TimeoutError` on total-timeout expiry, `aiohttp`
`ClientConnectionError`, `ClientResponseError`, or another `ClientError`). -/
inductive HttpOutcome where
  | ok (status : Nat) (body : String)
  | timeout
  | connError (msg : String)
  | respError (msg : String)
  | clientError (msg : String)
  deriving DecidableEq, Repr

/-- `FilePathOrBytes = str | bytes`: an upload input is a filesystem path or
an in-memory byte buffer. -/
inductive FileInput where
  | path (p : String)
  | bytes (b : List Nat)
  deriving DecidableEq, Repr

/-- `enums.py`: the closed enumeration of litterbox retention durations. -/
inductive LitterboxDuration where
  | H1 | H12 | H24 | H72 | W1
  deriving DecidableEq, Repr

/-- The `.value` wire string of each duration. -/
def LitterboxDuration.value : LitterboxDuration → String
  | .H1 => "1h"
  | .H12 => "12h"
  | .H24 => "24h"
  | .H72 => "72h"
  | .W1 => "1w"

/-- A multipart form request, recorded as its list of (field name, value)
pairs; file content is abstracted away, the `fileToUpload` field records the
file name sent with it. -/
abbrev Request := List (String × String)

/-- Characters stripped by Python's `str.strip()`. -/
def py_is_space (ch : Char) : Bool :=
  ch == ' ' || ch == '\t' || ch == '\n' || ch == '\r' ||
  ch == Char.ofNat 11 || ch == Char.ofNat 12

/-- Python `str.strip()`: remove leading and trailing whitespace. -/
def py_strip (s : String) : String :=
  String.mk (((s.toList.dropWhile py_is_space).reverse.dropWhile py_is_space).reverse)

/-- Worker for Python `str.split(sep)` at character level: `acc` holds the
reversed current segment. -/
def split_aux (sep : Char) : List Char → List Char → List (List Char)
  | [], acc => [acc.reverse]
  | ch :: rest, acc =>
      if ch = sep then acc.reverse :: split_aux sep rest []
      else split_aux sep rest (ch :: acc)

/-- Python `s.split(sep)` for a single-character separator (always returns a
nonempty list of segments). -/
def split_char (sep : Char) (s : List Char) : List (List Char) :=
  split_aux sep s []

/-- Python `lst[-1]` on a list of segments (`split` never returns an empty
list, so the `[]` case is unreachable). -/
def py_last : List (List Char) → List Char
  | [] => []
  | [x] => x
  | _ :: xs => py_last xs

/-- `" ".join(lst)` on a list of strings. -/
def join_space (l : List String) : String :=
  String.intercalate " " l

/-- `" ".join(s)` on a single string: Python iterates over the string's
characters, so this joins the individual characters with spaces. -/
def join_space_chars (s : String) : String :=
  join_space (s.toList.map (fun ch => String.mk [ch]))

/-- `CatboxAsyncUploader.file_url`. -/
def file_url : String := "https://files.catbox.moe"

/-- `CatboxAsyncUploader.album_url`. -/
def album_url : String := "https://catbox.moe/c"

/-- Python `s.startswith(pre)`. -/
def py_startswith (pre s : String) : Bool :=
  pre.toList.isPrefixOf s.toList

/-- `get_shortcode_from_url`: if the URL starts with the file-hosting or the
album-hosting base URL, replace it by `url.split("/")[-1]`; otherwise return
it unchanged. -/
def get_shortcode_from_url (url : String) : String :=
  if py_startswith file_url url || py_startswith album_url url then
    String.mk (py_last (split_char '/' url.toList))
  else url

/-- The file name `_prepare_content` infers from a path:
`p.replace("\\", "/").split("/")[-1]`. -/
def python_basename (p : String) : String :=
  String.mk (py_last (split_char '/'
    (p.toList.map (fun ch => if ch = '\\' then '/' else ch))))

/-- `_prepare_content`: returns the file name to send (the content is the
input itself); a byte buffer with no explicit name raises
`CatboxError("Need to set file_name")`. -/
def _prepare_content (input : FileInput) (file_name : Option String) :
    Except PyExc String :=
  match file_name with
  | some n => Except.ok n
  | none =>
      match input with
      | .path p => Except.ok (python_basename p)
      | .bytes _ => Except.error (PyExc.catboxError "Need to set file_name")

/-- Issue one request and translate the HTTP outcome: a response is passed
to `onResp`, a transport failure raises the corresponding exception.  The
request is recorded as issued in every case. -/
def http_result {α : Type} (req : Request) (outcome : HttpOutcome)
    (onResp : Nat → String → Except PyExc α) : Except PyExc α × List Request :=
  match outcome with
  | .ok status body => (onResp status body, [req])
  | .timeout => (Except.error PyExc.asyncioTimeout, [req])
  | .connError m => (Except.error (PyExc.aioConnError m), [req])
  | .respError m => (Except.error (PyExc.aioRespError m), [req])
  | .clientError m => (Except.error (PyExc.aioClientError m), [req])

/-- Apply an operation's `except` clauses to the result of its `try` body. -/
def applyHandlers {α : Type} (handler : PyExc → PyExc) :
    Except PyExc α × List Request → Except PyExc α × List Request
  | (Except.ok v, rs) => (Except.ok v, rs)
  | (Except.error e, rs) => (Except.error (handler e), rs)

/-- Same as `applyHandlers` for album operations, which also count sleeps. -/
def applyHandlersT {α : Type} (handler : PyExc → PyExc) :
    Except PyExc α × List Request × Nat → Except PyExc α × List Request × Nat
  | (Except.ok v, rs, s) => (Except.ok v, rs, s)
  | (Except.error e, rs, s) => (Except.error (handler e), rs, s)

/-- The multipart form built by `upload_file`. -/
def fileupload_request (h name : String) : Request :=
  [("reqtype", "fileupload"), ("userhash", h), ("fileToUpload", name)]

/-- The `try` body of `upload_file`: userhash check, content preparation,
then the POST; a non-200 status raises
`CatboxError("Failed to upload file to Catbox.")`, a 200 response returns
the stripped body. -/
def upload_file_body (uh : Option String) (outcome : HttpOutcome)
    (input : FileInput) (file_name : Option String) :
    Except PyExc String × List Request :=
  match uh with
  | none => (Except.error (PyExc.catboxError "Userhash is required."), [])
  | some h =>
      match _prepare_content input file_name with
      | Except.error e => (Except.error e, [])
      | Except.ok name =>
          http_result (fileupload_request h name) outcome (fun status body =>
            if status ≠ 200 then
              Except.error (PyExc.catboxError "Failed to upload file to Catbox.")
            else Except.ok (py_strip body))

/-- `upload_file`'s `except` clauses: `asyncio.TimeoutError`,
`aiohttp.ClientConnectionError`, `aiohttp.ClientError` (which also catches
`ClientResponseError`); everything else propagates unchanged. -/
def upload_file_handler (t : Nat) : PyExc → PyExc
  | .asyncioTimeout =>
      .catboxTimeoutError ("Upload request timed out after " ++ toString t ++ " seconds.")
  | .aioConnError _ => .catboxConnectionError "Failed to connect to Catbox."
  | .aioRespError m => .catboxError ("An error occurred: " ++ m)
  | .aioClientError m => .catboxError ("An error occurred: " ++ m)
  | e => e

/-- `upload_file(file_path_or_bytes, timeout, file_name)`. -/
def upload_file (uh : Option String) (outcome : HttpOutcome) (input : FileInput)
    (t : Nat) (file_name : Option String) : Except PyExc String × List Request :=
  applyHandlers (upload_file_handler t) (upload_file_body uh outcome input file_name)

/-- The multipart form built by `upload_to_litterbox` (no userhash; the
`filename=` of the file part is passed through unchecked, `None` is sent as
no name, recorded here as the empty string). -/
def litterbox_request (file_name : Option String) (d : LitterboxDuration) : Request :=
  [("reqtype", "fileupload"), ("time", d.value), ("fileToUpload", file_name.getD "")]

/-- The `try` body of `upload_to_litterbox`: no userhash check and no
`_prepare_content` call; a non-200 status raises a **plain**
`Exception("Failed to upload file to Catbox.")` (not a `CatboxError`); a
200 response returns `response_text.strip()` where `response_text` was
already stripped. -/
def upload_to_litterbox_body (outcome : HttpOutcome) (input : FileInput)
    (file_name : Option String) (d : LitterboxDuration) :
    Except PyExc String × List Request :=
  http_result (litterbox_request file_name d) outcome (fun status body =>
    if status ≠ 200 then
      Except.error (PyExc.plainExc "Failed to upload file to Catbox.")
    else Except.ok (py_strip (py_strip body)))

/-- `upload_to_litterbox`'s `except` clauses: `asyncio.TimeoutError`,
`ClientConnectionError`, `ClientResponseError`, `ClientError`. -/
def litterbox_handler (t : Nat) : PyExc → PyExc
  | .asyncioTimeout =>
      .catboxTimeoutError ("Upload to Litterbox timed out after " ++ toString t ++ " seconds.")
  | .aioConnError _ =>
      .catboxConnectionError "Failed to connect to Litterbox. The server might be down."
  | .aioRespError m => .catboxHTTPError ("HTTP error occurred: " ++ m)
  | .aioClientError m => .catboxError ("An error occurred: " ++ m)
  | e => e

/-- `upload_to_litterbox(file_path_or_bytes, file_name, duration, timeout)`. -/
def upload_to_litterbox (outcome : HttpOutcome) (input : FileInput)
    (file_name : Option String) (d : LitterboxDuration) (t : Nat) :
    Except PyExc String × List Request :=
  applyHandlers (litterbox_handler t) (upload_to_litterbox_body outcome input file_name d)

/-- Fuelled chunking; with `fuel ≥ l.length` and `c ≥ 1` this computes
`[l[i:i+c] for i in range(0, len(l), c)]`. -/
def chunksFuel {α : Type} (c : Nat) : Nat → List α → List (List α)
  | _, [] => []
  | 0, _ => []
  | fuel + 1, x :: xs => ((x :: xs).take c) :: chunksFuel c fuel ((x :: xs).drop c)

/-- The chunk list `[file_paths[i:i+chunk_size] for i in range(0, len(file_paths), chunk_size)]`
built by both album-upload operations (for `c = 0` Python's `range` would
raise; the claims only concern `c ≥ 1`). -/
def chunks {α : Type} (c : Nat) (l : List α) : List (List α) :=
  chunksFuel c l.length l

/-- `asyncio.gather` over one chunk's upload tasks: results are joined in
submission order; the first exception propagates. -/
def gather_uploads (upl : String → Except PyExc String × List Request) :
    List String → Except PyExc (List String) × List Request
  | [] => (Except.ok [], [])
  | p :: rest =>
      match (upl p).1 with
      | Except.error e => (Except.error e, (upl p).2)
      | Except.ok u =>
          match (gather_uploads upl rest).1 with
          | Except.error e => (Except.error e, (upl p).2 ++ (gather_uploads upl rest).2)
          | Except.ok us => (Except.ok (u :: us), (upl p).2 ++ (gather_uploads upl rest).2)

/-- The chunk loop of the album uploads: for each chunk gather its uploads,
extend the accumulated links, then sleep once (`asyncio.sleep(time_sleep)`,
counted in the third component); an exception aborts the loop at once. -/
def process_chunks (upl : String → Except PyExc String × List Request) :
    List (List String) → Except PyExc (List String) × List Request × Nat
  | [] => (Except.ok [], [], 0)
  | ch :: rest =>
      match (gather_uploads upl ch).1 with
      | Except.error e => (Except.error e, (gather_uploads upl ch).2, 0)
      | Except.ok us =>
          match (process_chunks upl rest).1 with
          | Except.error e =>
              (Except.error e,
               (gather_uploads upl ch).2 ++ (process_chunks upl rest).2.1,
               (process_chunks upl rest).2.2 + 1)
          | Except.ok us2 =>
              (Except.ok (us ++ us2),
               (gather_uploads upl ch).2 ++ (process_chunks upl rest).2.1,
               (process_chunks upl rest).2.2 + 1)

/-- The shared `except` clauses of `upload_album` and
`upload_album_to_litterbox`: `asyncio.TimeoutError`,
`ClientConnectionError`, `ClientResponseError`, `ClientError`.  The Catbox
exceptions raised by the inner uploads match none of these and propagate
unchanged. -/
def album_handler (t : Nat) : PyExc → PyExc
  | .asyncioTimeout =>
      .catboxTimeoutError ("Album upload timed out after " ++ toString t ++ " seconds.")
  | .aioConnError _ =>
      .catboxConnectionError "Failed to connect to Catbox. The server might be down."
  | .aioRespError m => .catboxHTTPError ("HTTP error occurred: " ++ m)
  | .aioClientError m => .catboxError ("An error occurred: " ++ m)
  | e => e

/-- `upload_album(file_paths, timeout, chunk_size, time_sleep)`: each path's
request outcome is given by `out`; the per-file uploads are `upload_file`
with the same userhash and timeout and no explicit file name. -/
def upload_album (uh : Option String) (out : String → HttpOutcome)
    (file_paths : List String) (t c : Nat) :
    Except PyExc (List String) × List Request × Nat :=
  applyHandlersT (album_handler t)
    (process_chunks (fun p => upload_file uh (out p) (FileInput.path p) t none)
      (chunks c file_paths))

/-- `upload_album_to_litterbox(file_paths, timeout, duration, chunk_size, time_sleep)`:
same chunk loop over `upload_to_litterbox` (which needs no userhash). -/
def upload_album_to_litterbox (out : String → HttpOutcome)
    (file_paths : List String) (t : Nat) (d : LitterboxDuration) (c : Nat) :
    Except PyExc (List String) × List Request × Nat :=
  applyHandlersT (album_handler t)
    (process_chunks (fun p => upload_to_litterbox (out p) (FileInput.path p) none d t)
      (chunks c file_paths))

/-- The multipart form built by `delete_files`. -/
def delete_files_request (h : String) (files : List String) : Request :=
  [("reqtype", "deletefiles"), ("userhash", h), ("files", join_space files)]

/-- The `try` body of `delete_files`: userhash check, then the POST;
`response.raise_for_status()` raises `aiohttp.ClientResponseError` for a
status of 400 or above. -/
def delete_files_body (uh : Option String) (outcome : HttpOutcome)
    (files : List String) : Except PyExc Unit × List Request :=
  match uh with
  | none => (Except.error (PyExc.catboxError "Userhash is required."), [])
  | some h =>
      http_result (delete_files_request h files) outcome (fun status _ =>
        if 400 ≤ status then Except.error (PyExc.aioRespError ("HTTP " ++ toString status))
        else Except.ok ())

/-- `delete_files` has a single `except aiohttp.ClientError` clause:
`asyncio.TimeoutError` is **not** a `ClientError` and escapes unconverted. -/
def delete_files_handler : PyExc → PyExc
  | .aioConnError m => .catboxError ("Failed to delete files: " ++ m)
  | .aioRespError m => .catboxError ("Failed to delete files: " ++ m)
  | .aioClientError m => .catboxError ("Failed to delete files: " ++ m)
  | e => e

/-- `delete_files(files, timeout)`. -/
def delete_files (uh : Option String) (outcome : HttpOutcome)
    (files : List String) (t : Nat) : Except PyExc Unit × List Request :=
  applyHandlers delete_files_handler (delete_files_body uh outcome files)

/-- The multipart form built by `create_album`; its `files` field is
`" ".join(" ".join([get_shortcode_from_url(url) for url in files]))` — note
the **double** join: the outer `" ".join` iterates over the characters of
the inner join's result. -/
def create_album_request (h : String) (files : List String)
    (title descr : String) : Request :=
  [("reqtype", "createalbum"), ("userhash", h), ("title", title), ("desc", descr),
   ("files", join_space_chars (join_space (files.map get_shortcode_from_url)))]

/-- The `try` body of `create_album`: userhash check, POST,
`raise_for_status()`, then return the stripped body. -/
def create_album_body (uh : Option String) (outcome : HttpOutcome)
    (files : List String) (title descr : String) :
    Except PyExc String × List Request :=
  match uh with
  | none => (Except.error (PyExc.catboxError "Userhash is required."), [])
  | some h =>
      http_result (create_album_request h files title descr) outcome (fun status body =>
        if 400 ≤ status then Except.error (PyExc.aioRespError ("HTTP " ++ toString status))
        else Except.ok (py_strip body))

/-- `create_album` has a single `except aiohttp.ClientError` clause. -/
def create_album_handler : PyExc → PyExc
  | .aioConnError m => .catboxError ("Failed to create album: " ++ m)
  | .aioRespError m => .catboxError ("Failed to create album: " ++ m)
  | .aioClientError m => .catboxError ("Failed to create album: " ++ m)
  | e => e

/-- `create_album(files, title, description)`. -/
def create_album (uh : Option String) (outcome : HttpOutcome)
    (files : List String) (title descr : String) :
    Except PyExc String × List Request :=
  applyHandlers create_album_handler (create_album_body uh outcome files title descr)

/-- The multipart form built by `edit_album`; here the `files` field is the
single space-join of the shortcodes. -/
def edit_album_request (h short : String) (files : List String)
    (title descr : String) : Request :=
  [("reqtype", "editalbum"), ("userhash", h), ("short", short),
   ("title", title), ("desc", descr),
   ("files", join_space (files.map get_shortcode_from_url))]

/-- The `try` body of `edit_album`. -/
def edit_album_body (uh : Option String) (outcome : HttpOutcome) (short : String)
    (files : List String) (title descr : String) :
    Except PyExc Unit × List Request :=
  match uh with
  | none => (Except.error (PyExc.catboxError "Userhash is required."), [])
  | some h =>
      http_result (edit_album_request h short files title descr) outcome (fun status _ =>
        if 400 ≤ status then Except.error (PyExc.aioRespError ("HTTP " ++ toString status))
        else Except.ok ())

/-- `edit_album` has a single `except aiohttp.ClientError` clause. -/
def edit_album_handler : PyExc → PyExc
  | .aioConnError m => .catboxError ("Failed to edit album: " ++ m)
  | .aioRespError m => .catboxError ("Failed to edit album: " ++ m)
  | .aioClientError m => .catboxError ("Failed to edit album: " ++ m)
  | e => e

/-- `edit_album(shortcode, files, title, description)`. -/
def edit_album (uh : Option String) (outcome : HttpOutcome) (short : String)
    (files : List String) (title descr : String) :
    Except PyExc Unit × List Request :=
  applyHandlers edit_album_handler (edit_album_body uh outcome short files title descr)

/-- The multipart form built by `delete_album`. -/
def delete_album_request (h short : String) : Request :=
  [("reqtype", "deletealbum"), ("userhash", h), ("short", short)]

/-- The `try` body of `delete_album`. -/
def delete_album_body (uh : Option String) (outcome : HttpOutcome)
    (short : String) : Except PyExc Unit × List Request :=
  match uh with
  | none => (Except.error (PyExc.catboxError "Userhash is required."), [])
  | some h =>
      http_result (delete_album_request h short) outcome (fun status _ =>
        if 400 ≤ status then Except.error (PyExc.aioRespError ("HTTP " ++ toString status))
        else Except.ok ())

/-- `delete_album` has a single `except aiohttp.ClientError` clause. -/
def delete_album_handler : PyExc → PyExc
  | .aioConnError m => .catboxError ("Failed to delete album: " ++ m)
  | .aioRespError m => .catboxError ("Failed to delete album: " ++ m)
  | .aioClientError m => .catboxError ("Failed to delete album: " ++ m)
  | e => e

/-- `delete_album(shortcode)`. -/
def delete_album (uh : Option String) (outcome : HttpOutcome) (short : String) :
    Except PyExc Unit × List Request :=
  applyHandlers delete_album_handler (delete_album_body uh outcome short)

/-! ### Properties of `split`/`py_last` and shortcode extraction -/

/-- The spec's "substring after the last `sep`" at character level: the
longest `sep`-free suffix. -/
def after_last (sep : Char) (s : List Char) : List Char :=
  (s.reverse.takeWhile (fun ch => ch != sep)).reverse

/-- The spec's "substring after the last '/'" of a URL. -/
def trailing_segment (url : String) : String :=
  String.mk (after_last '/' url.toList)

theorem split_aux_ne_nil (sep : Char) :
    ∀ (s acc : List Char), split_aux sep s acc ≠ [] := by
  intro s
  induction s with
  | nil => intro acc; simp [split_aux]
  | cons ch rest ih =>
      intro acc
      by_cases h : ch = sep <;> simp [split_aux, h, ih]

theorem py_last_cons (a : List Char) (l : List (List Char)) (h : l ≠ []) :
    py_last (a :: l) = py_last l := by
  cases l with
  | nil => exact absurd rfl h
  | cons b bs => rfl

theorem takeWhile_append_of_mem {sep : Char} {l1 : List Char} (h : sep ∈ l1)
    (l2 : List Char) :
    (l1 ++ l2).takeWhile (fun ch => ch != sep) = l1.takeWhile (fun ch => ch != sep) := by
  induction l1 with
  | nil => cases h
  | cons a t ih =>
      by_cases ha : a = sep
      · subst ha
        simp [List.takeWhile]
      · have ht : sep ∈ t := by
          cases h with
          | head => exact absurd rfl ha
          | tail _ h2 => exact h2
        simp [List.takeWhile, bne_iff_ne, ha, ih ht]

theorem takeWhile_append_of_not_mem {sep : Char} {l1 : List Char} (h : sep ∉ l1)
    (l2 : List Char) :
    (l1 ++ l2).takeWhile (fun ch => ch != sep)
      = l1 ++ l2.takeWhile (fun ch => ch != sep) := by
  induction l1 with
  | nil => simp
  | cons a t ih =>
      have ha : a ≠ sep := fun hh => h (hh ▸ List.mem_cons_self a t)
      have ht : sep ∉ t := fun hh => h (List.mem_cons_of_mem a hh)
      have hb : (a != sep) = true := by simp [bne_iff_ne, ha]
      simp [List.takeWhile, hb, ih ht]

theorem after_last_cons_self {sep : Char} (rest : List Char) :
    after_last sep (sep :: rest)
      = if sep ∈ rest then after_last sep rest else rest := by
  by_cases hmem : sep ∈ rest
  · have : sep ∈ rest.reverse := List.mem_reverse.mpr hmem
    simp [after_last, List.reverse_cons, takeWhile_append_of_mem this, hmem]
  · have hrev : sep ∉ rest.reverse := fun hh => hmem (List.mem_reverse.mp hh)
    simp [after_last, List.reverse_cons, takeWhile_append_of_not_mem hrev,
      List.takeWhile, hmem]

theorem after_last_cons_ne {sep : Char} (ch : Char) (rest : List Char)
    (hmem : sep ∈ rest) : after_last sep (ch :: rest) = after_last sep rest := by
  have : sep ∈ rest.reverse := List.mem_reverse.mpr hmem
  simp [after_last, List.reverse_cons, takeWhile_append_of_mem this]

/-- Characterisation of `split(sep)[-1]`: it is the part of the input after
the last separator (the whole remaining input prefixed by the pending
accumulator when no separator occurs). -/
theorem py_last_split_aux (sep : Char) :
    ∀ (s acc : List Char),
      py_last (split_aux sep s acc)
        = if sep ∈ s then after_last sep s else acc.reverse ++ s := by
  intro s
  induction s with
  | nil => intro acc; simp [split_aux, py_last]
  | cons ch rest ih =>
      intro acc
      by_cases hch : ch = sep
      · subst hch
        rw [show split_aux ch (ch :: rest) acc
              = acc.reverse :: split_aux ch rest [] by simp [split_aux]]
        rw [py_last_cons _ _ (split_aux_ne_nil ch rest []), ih []]
        rw [after_last_cons_self rest]
        by_cases hmem : ch ∈ rest <;> simp [hmem]
      · rw [show split_aux sep (ch :: rest) acc
              = split_aux sep rest (ch :: acc) by simp [split_aux, hch]]
        rw [ih (ch :: acc)]
        have hcond : sep ∈ ch :: rest ↔ sep ∈ rest := by
          constructor
          · intro hh
            cases hh with
            | head => exact absurd rfl hch
            | tail _ h2 => exact h2
          · intro hh; exact List.mem_cons_of_mem ch hh
        by_cases hmem : sep ∈ rest
        · rw [if_pos hmem, if_pos (hcond.mpr hmem)]
          exact (after_last_cons_ne ch rest hmem).symm
        · rw [if_neg hmem, if_neg (fun hh => hmem (hcond.mp hh))]
          simp

theorem py_last_split_char (sep : Char) (s : List Char) :
    py_last (split_char sep s) = if sep ∈ s then after_last sep s else s := by
  rw [split_char, py_last_split_aux]
  by_cases hmem : sep ∈ s <;> simp [hmem]

theorem sep_not_mem_takeWhile (sep : Char) (l : List Char) :
    sep ∉ l.takeWhile (fun ch => ch != sep) := by
  induction l with
  | nil => simp
  | cons a t ih =>
      by_cases ha : a = sep
      · subst ha; simp [List.takeWhile]
      · have hb : (a != sep) = true := by simp [bne_iff_ne, ha]
        simp only [List.takeWhile, hb, List.mem_cons]
        intro hh
        rcases hh with h1 | h2
        · exact ha h1.symm
        · exact ih h2

/-- The trailing segment produced by `split(sep)[-1]` never contains the
separator. -/
theorem sep_not_mem_py_last_split (sep : Char) (s : List Char) :
    sep ∉ py_last (split_char sep s) := by
  rw [py_last_split_char]
  by_cases hmem : sep ∈ s
  · rw [if_pos hmem]
    intro hh
    exact sep_not_mem_takeWhile sep s.reverse (List.mem_reverse.mp hh)
  · rw [if_neg hmem]; exact hmem

theorem mem_of_isPrefixOf {p l : List Char} (h : p.isPrefixOf l = true) :
    ∀ a ∈ p, a ∈ l := by
  induction p generalizing l with
  | nil => intro a ha; cases ha
  | cons x xs ih =>
      cases l with
      | nil => simp [List.isPrefixOf] at h
      | cons y ys =>
          simp only [List.isPrefixOf, Bool.and_eq_true, beq_iff_eq] at h
          intro a ha
          cases ha with
          | head => exact h.1 ▸ List.mem_cons_self y ys
          | tail _ h2 => exact List.mem_cons_of_mem y (ih h.2 a h2)

/-- C3: for every string `url`, if `url` starts with the file-hosting base
URL or the album-hosting base URL, `get_shortcode_from_url` returns the
substring after the last `'/'` (the trailing path segment), and otherwise it
returns `url` unchanged; in particular `"https://files.catbox.moe/abc123"`
maps to `"abc123"`, `"https://catbox.moe/c/xyz789"` to `"xyz789"`, and an
unrelated URL is returned unchanged. -/
theorem get_shortcode_from_url_spec :
    (∀ url : String,
        get_shortcode_from_url url =
          if py_startswith file_url url || py_startswith album_url url then
            trailing_segment url
          else url)
    ∧ get_shortcode_from_url "https://files.catbox.moe/abc123" = "abc123"
    ∧ get_shortcode_from_url "https://catbox.moe/c/xyz789" = "xyz789"
    ∧ get_shortcode_from_url "https://example.com/a/b" = "https://example.com/a/b" := by
  refine ⟨?_, by decide, by decide, by decide⟩
  intro url
  by_cases hcond : (py_startswith file_url url || py_startswith album_url url) = true
  · rw [get_shortcode_from_url, if_pos hcond, if_pos hcond]
    have hslash : '/' ∈ url.toList := by
      rcases Bool.or_eq_true _ _ |>.mp hcond with h | h
      · exact mem_of_isPrefixOf h '/' (by decide)
      · exact mem_of_isPrefixOf h '/' (by decide)
    rw [trailing_segment, py_last_split_char, if_pos hslash]
  · rw [get_shortcode_from_url, if_neg hcond, if_neg hcond]

/-- C9: `get_shortcode_from_url` is idempotent — the extracted trailing
segment contains no `'/'`, hence can never itself start with one of the two
base URLs (both of which contain `'/'`). -/
theorem get_shortcode_idempotent (url : String) :
    get_shortcode_from_url (get_shortcode_from_url url)
      = get_shortcode_from_url url := by
  by_cases hcond : (py_startswith file_url url || py_startswith album_url url) = true
  · have h1 : get_shortcode_from_url url
        = String.mk (py_last (split_char '/' url.toList)) := by
      rw [get_shortcode_from_url, if_pos hcond]
    set seg : List Char := py_last (split_char '/' url.toList) with hseg
    have hnoslash : '/' ∉ seg := sep_not_mem_py_last_split '/' url.toList
    have htl : (String.mk seg).toList = seg := rfl
    have h2 : ¬ (py_startswith file_url (String.mk seg)
        || py_startswith album_url (String.mk seg)) = true := by
      intro hor
      rcases Bool.or_eq_true _ _ |>.mp hor with h | h
      · rw [py_startswith, htl] at h
        exact hnoslash (mem_of_isPrefixOf h '/' (by decide))
      · rw [py_startswith, htl] at h
        exact hnoslash (mem_of_isPrefixOf h '/' (by decide))
    rw [h1, get_shortcode_from_url, if_neg h2]
  · have h1 : get_shortcode_from_url url = url := by
      rw [get_shortcode_from_url, if_neg hcond]
    rw [h1, h1]

/-! ### Properties of the album chunk loop -/

theorem chunksFuel_nil {α : Type} (c fuel : Nat) :
    chunksFuel c fuel ([] : List α) = [] := by
  cases fuel <;> rfl

theorem chunksFuel_ne_nil {α : Type} (c : Nat) (fuel : Nat) (l : List α)
    (hl : l ≠ []) (hfuel : l.length ≤ fuel) : chunksFuel c fuel l ≠ [] := by
  cases l with
  | nil => exact absurd rfl hl
  | cons x xs =>
      cases fuel with
      | zero => simp at hfuel
      | succ fuel => simp [chunksFuel]

theorem ceil_step (n c : Nat) (hc : 1 ≤ c) (hn : 1 ≤ n) :
    (n - c + c - 1) / c + 1 = (n + c - 1) / c := by
  have h1 : n + c - 1 = (n - 1) + c := by omega
  rw [h1, Nat.add_div_right _ (by omega : 0 < c)]
  by_cases hcn : c ≤ n
  · have h2 : n - c + c - 1 = n - 1 := by omega
    rw [h2]
  · have h2 : n - c + c - 1 = c - 1 := by omega
    rw [h2, Nat.div_eq_of_lt (by omega : c - 1 < c),
      Nat.div_eq_of_lt (by omega : n - 1 < c)]

theorem chunksFuel_length {α : Type} (c : Nat) (hc : 1 ≤ c) :
    ∀ (fuel : Nat) (l : List α), l.length ≤ fuel →
      (chunksFuel c fuel l).length = (l.length + c - 1) / c := by
  intro fuel
  induction fuel with
  | zero =>
      intro l hl
      have : l = [] := List.length_eq_zero.mp (Nat.le_zero.mp hl)
      subst this
      simp [chunksFuel_nil, Nat.div_eq_of_lt (by omega : c - 1 < c)]
  | succ fuel ih =>
      intro l hl
      cases l with
      | nil => simp [chunksFuel_nil, Nat.div_eq_of_lt (by omega : c - 1 < c)]
      | cons x xs =>
          have hdrop : ((x :: xs).drop c).length ≤ fuel := by
            rw [List.length_drop]
            simp only [List.length_cons] at hl ⊢
            omega
          simp only [chunksFuel, List.length_cons, ih _ hdrop, List.length_drop,
            List.length_cons]
          exact ceil_step (xs.length + 1) c hc (by omega)

theorem chunksFuel_join {α : Type} (c : Nat) (hc : 1 ≤ c) :
    ∀ (fuel : Nat) (l : List α), l.length ≤ fuel → (chunksFuel c fuel l).flatten = l := by
  intro fuel
  induction fuel with
  | zero =>
      intro l hl
      have : l = [] := List.length_eq_zero.mp (Nat.le_zero.mp hl)
      subst this
      simp [chunksFuel_nil]
  | succ fuel ih =>
      intro l hl
      cases l with
      | nil => simp [chunksFuel_nil]
      | cons x xs =>
          have hdrop : ((x :: xs).drop c).length ≤ fuel := by
            rw [List.length_drop]
            simp only [List.length_cons] at hl ⊢
            omega
          simp only [chunksFuel, List.flatten_cons, ih _ hdrop]
          exact List.take_append_drop c (x :: xs)

theorem chunksFuel_sizes_le {α : Type} (c : Nat) :
    ∀ (fuel : Nat) (l : List α), ∀ ch ∈ chunksFuel c fuel l, ch.length ≤ c := by
  intro fuel
  induction fuel with
  | zero =>
      intro l ch hch
      cases l <;> simp [chunksFuel_nil, chunksFuel] at hch
  | succ fuel ih =>
      intro l ch hch
      cases l with
      | nil => simp [chunksFuel_nil] at hch
      | cons x xs =>
          simp only [chunksFuel, List.mem_cons] at hch
          rcases hch with h1 | h2
          · subst h1
            rw [List.length_take]
            omega
          · exact ih _ ch h2

theorem chunksFuel_dropLast_sizes {α : Type} (c : Nat) (hc : 1 ≤ c) :
    ∀ (fuel : Nat) (l : List α), l.length ≤ fuel →
      ∀ ch ∈ (chunksFuel c fuel l).dropLast, ch.length = c := by
  intro fuel
  induction fuel with
  | zero =>
      intro l hl ch hch
      have : l = [] := List.length_eq_zero.mp (Nat.le_zero.mp hl)
      subst this
      simp [chunksFuel_nil] at hch
  | succ fuel ih =>
      intro l hl ch hch
      cases l with
      | nil => simp [chunksFuel_nil] at hch
      | cons x xs =>
          simp only [chunksFuel] at hch
          by_cases hrest : (x :: xs).drop c = []
          · rw [hrest, chunksFuel_nil] at hch
            simp [List.dropLast] at hch
          · have hlen : ((x :: xs).drop c).length ≤ fuel := by
              rw [List.length_drop]
              simp only [List.length_cons] at hl ⊢
              omega
            have hne := chunksFuel_ne_nil c fuel _ hrest hlen
            obtain ⟨r, rs, hrs⟩ : ∃ r rs, chunksFuel c fuel ((x :: xs).drop c) = r :: rs := by
              cases hcs : chunksFuel c fuel ((x :: xs).drop c) with
              | nil => exact absurd hcs hne
              | cons r rs => exact ⟨r, rs, rfl⟩
            rw [hrs] at hch
            simp only [List.dropLast, List.mem_cons] at hch
            rcases hch with h1 | h2
            · subst h1
              have hxc : c ≤ (x :: xs).length := by
                by_contra hx
                exact hrest (List.drop_eq_nil_of_le (by omega))
              rw [List.length_take]
              omega
            · have := ih _ hlen ch
              rw [hrs] at this
              exact this h2

theorem gather_uploads_ok (upl : String → Except PyExc String × List Request)
    (url : String → String) :
    ∀ ch : List String, (∀ p ∈ ch, (upl p).1 = Except.ok (url p)) →
      ∃ reqs, gather_uploads upl ch = (Except.ok (ch.map url), reqs) := by
  intro ch
  induction ch with
  | nil => intro _; exact ⟨[], rfl⟩
  | cons p rest ih =>
      intro hp
      have h1 : (upl p).1 = Except.ok (url p) := hp p (List.mem_cons_self p rest)
      obtain ⟨reqs2, hrec⟩ := ih (fun q hq => hp q (List.mem_cons_of_mem p hq))
      refine ⟨(upl p).2 ++ reqs2, ?_⟩
      simp only [gather_uploads, h1, hrec, List.map_cons]

theorem process_chunks_ok (upl : String → Except PyExc String × List Request)
    (url : String → String) :
    ∀ cs : List (List String), (∀ p ∈ cs.flatten, (upl p).1 = Except.ok (url p)) →
      ∃ reqs s, process_chunks upl cs = (Except.ok (cs.flatten.map url), reqs, s) := by
  intro cs
  induction cs with
  | nil => intro _; exact ⟨[], 0, rfl⟩
  | cons ch rest ih =>
      intro hp
      obtain ⟨reqs1, hg⟩ := gather_uploads_ok upl url ch
        (fun q hq => hp q (by rw [List.flatten_cons]; exact List.mem_append_left _ hq))
      obtain ⟨reqs2, s, hrec⟩ := ih
        (fun q hq => hp q (by rw [List.flatten_cons]; exact List.mem_append_right _ hq))
      refine ⟨reqs1 ++ reqs2, s + 1, ?_⟩
      simp only [process_chunks, hg, hrec, List.flatten_cons, List.map_append]

/-- C1: for every list of `N` file paths and every chunk size `c ≥ 1`,
`upload_album` splits the input into `⌈N/c⌉` chunks whose concatenation in
order is the input list, each chunk of size `c` except possibly a smaller
final one; and, assuming every per-file `upload_file` call succeeds
returning `url p` for path `p`, the operation returns the list
`file_paths.map url` — length `N`, `i`-th element the URL of the `i`-th
input path. -/
theorem upload_album_chunks_and_order (uh : String) (out : String → HttpOutcome)
    (file_paths : List String) (t c : Nat) (url : String → String)
    (hc : 1 ≤ c)
    (hok : ∀ p ∈ file_paths,
      (upload_file (some uh) (out p) (FileInput.path p) t none).1 = Except.ok (url p)) :
    (upload_album (some uh) out file_paths t c).1 = Except.ok (file_paths.map url)
    ∧ (chunks c file_paths).length = (file_paths.length + c - 1) / c
    ∧ (chunks c file_paths).flatten = file_paths
    ∧ (∀ ch ∈ (chunks c file_paths).dropLast, ch.length = c)
    ∧ (∀ ch ∈ chunks c file_paths, ch.length ≤ c) := by
  have hjoin : (chunks c file_paths).flatten = file_paths :=
    chunksFuel_join c hc file_paths.length file_paths le_rfl
  refine ⟨?_, chunksFuel_length c hc file_paths.length file_paths le_rfl, hjoin,
    chunksFuel_dropLast_sizes c hc file_paths.length file_paths le_rfl,
    chunksFuel_sizes_le c file_paths.length file_paths⟩
  obtain ⟨reqs, s, hp⟩ := process_chunks_ok
    (fun p => upload_file (some uh) (out p) (FileInput.path p) t none) url
    (chunks c file_paths) (by rw [hjoin]; exact hok)
  rw [upload_album, hp, applyHandlersT, hjoin]

/-- Witness for C1 at a concrete input: three paths, chunk size 2, every
upload answered with status 200 and body `"u"`. -/
theorem upload_album_chunks_and_order_witness :
    (1 : Nat) ≤ 2
    ∧ (upload_album (some "h") (fun _ => HttpOutcome.ok 200 "u")
        ["a", "b", "c"] 30 2).1 = Except.ok ["u", "u", "u"] := by
  constructor
  · decide
  · exact (upload_album_chunks_and_order "h" (fun _ => HttpOutcome.ok 200 "u")
      ["a", "b", "c"] 30 2 (fun _ => "u") (by decide) (fun p _ => rfl)).1

/-- C10: both album-upload operations called on the empty path list return
the empty list, issue no upload request and perform no inter-chunk sleep;
the userhash is never consulted (`upload_album` succeeds for every `uh`,
including `none`, and `upload_album_to_litterbox` takes no userhash at
all). -/
theorem empty_album_upload_noop (uh : Option String) (out : String → HttpOutcome)
    (t c : Nat) (d : LitterboxDuration) :
    upload_album uh out [] t c = (Except.ok [], [], 0)
    ∧ upload_album_to_litterbox out [] t d c = (Except.ok [], [], 0) :=
  ⟨rfl, rfl⟩

/-! ### Error-handling claims -/

/-- C2: each of the five token-requiring operations (`upload_file`,
`delete_files`, `create_album`, `edit_album`, `delete_album`) called with
`userhash = None` raises the missing-token configuration error
`CatboxError("Userhash is required.")` and issues no request at all,
whatever the arguments and whatever the network would have answered. -/
theorem token_required_ops_fail_before_request (outcome : HttpOutcome)
    (input : FileInput) (t : Nat) (nm : Option String) (files : List String)
    (title descr short : String) :
    upload_file none outcome input t nm
      = (Except.error (PyExc.catboxError "Userhash is required."), [])
    ∧ delete_files none outcome files t
      = (Except.error (PyExc.catboxError "Userhash is required."), [])
    ∧ create_album none outcome files title descr
      = (Except.error (PyExc.catboxError "Userhash is required."), [])
    ∧ edit_album none outcome short files title descr
      = (Except.error (PyExc.catboxError "Userhash is required."), [])
    ∧ delete_album none outcome short
      = (Except.error (PyExc.catboxError "Userhash is required."), []) :=
  ⟨rfl, rfl, rfl, rfl, rfl⟩

/-- C4 (code bug): on a non-200 response, `upload_file` raises the generic
`CatboxError` as claimed, but `upload_to_litterbox` raises a **plain**
`Exception("Failed to upload file to Catbox.")`, which is not an instance of
the base service error type `CatboxError`. -/
theorem litterbox_non200_raises_plain_exception :
    (upload_to_litterbox (HttpOutcome.ok 500 "oops") (FileInput.path "cat.png")
        (some "cat.png") LitterboxDuration.H1 30).1
      = Except.error (PyExc.plainExc "Failed to upload file to Catbox.")
    ∧ in_catbox_taxonomy (PyExc.plainExc "Failed to upload file to Catbox.") = false
    ∧ (upload_file (some "h") (HttpOutcome.ok 500 "oops") (FileInput.path "cat.png")
        30 none).1
      = Except.error (PyExc.catboxError "Failed to upload file to Catbox.")
    ∧ in_catbox_taxonomy (PyExc.catboxError "Failed to upload file to Catbox.") = true :=
  ⟨rfl, rfl, rfl, rfl⟩

/-- C5 counterexample: `upload_to_litterbox` given a byte buffer and no file
name does **not** fail — it issues the request (one network call) and
returns the URL, contradicting the claim that every upload operation fails
with the configuration error before any network call. -/
theorem litterbox_bytes_without_name_uploads_anyway :
    (upload_to_litterbox (HttpOutcome.ok 200 " https://litter.catbox.moe/x.png ")
        (FileInput.bytes [1, 2, 3]) none LitterboxDuration.H1 30).1
      = Except.ok "https://litter.catbox.moe/x.png"
    ∧ (upload_to_litterbox (HttpOutcome.ok 200 " https://litter.catbox.moe/x.png ")
        (FileInput.bytes [1, 2, 3]) none LitterboxDuration.H1 30).2.length = 1 :=
  ⟨rfl, rfl⟩

/-- C5 (amended): `upload_file` given a byte buffer and no explicit file
name fails with the configuration error `CatboxError("Need to set
file_name")` before any network call (no request issued);
`upload_to_litterbox` performs no such validation and issues its request
with the nameless buffer. -/
theorem bytes_without_name_amended (uh : String) (outcome : HttpOutcome)
    (b : List Nat) (t : Nat) (d : LitterboxDuration) (body : String) :
    upload_file (some uh) outcome (FileInput.bytes b) t none
      = (Except.error (PyExc.catboxError "Need to set file_name"), [])
    ∧ (upload_to_litterbox (HttpOutcome.ok 200 body) (FileInput.bytes b) none d t).1
      = Except.ok (py_strip (py_strip body))
    ∧ (upload_to_litterbox (HttpOutcome.ok 200 body) (FileInput.bytes b) none d t).2.length
      = 1 :=
  ⟨rfl, rfl, rfl⟩

/-- C6 (code bug): an exception outside the closed `CatboxError` taxonomy
escapes an operation: a 404 response makes `upload_to_litterbox` raise a
plain `Exception`, which none of its `except` clauses converts. -/
theorem non_taxonomy_exception_escapes :
    (upload_to_litterbox (HttpOutcome.ok 404 "") (FileInput.bytes [0, 1])
        (some "x.bin") LitterboxDuration.H12 10).1
      = Except.error (PyExc.plainExc "Failed to upload file to Catbox.")
    ∧ in_catbox_taxonomy (PyExc.plainExc "Failed to upload file to Catbox.") = false :=
  ⟨rfl, rfl⟩

/-- C7 counterexample: `delete_files` on a timed-out request propagates the
raw `asyncio.TimeoutError` — its only `except` clause is
`aiohttp.ClientError`, which does not catch it — so the surfaced exception
is not the taxonomy's timeout error (nor in the taxonomy at all). -/
theorem delete_files_timeout_not_taxonomy :
    (delete_files (some "h") HttpOutcome.timeout ["a.png"] 5).1
      = Except.error PyExc.asyncioTimeout
    ∧ in_catbox_taxonomy PyExc.asyncioTimeout = false :=
  ⟨rfl, rfl⟩

/-- C7 (amended): a request exceeding its timeout surfaces
`CatboxTimeoutError` from `upload_file`, `upload_to_litterbox`,
`upload_album` and `upload_album_to_litterbox` (for the album operations the
whole batch aborts with that error instead of returning partial results);
`delete_files`, however, propagates the raw `asyncio.TimeoutError`, which is
outside the taxonomy. -/
theorem timeout_error_amended (uh p : String) (t : Nat) (input : FileInput)
    (nm : Option String) (d : LitterboxDuration) (rest files : List String)
    (c : Nat) (hc : 1 ≤ c) :
    (upload_file (some uh) HttpOutcome.timeout (FileInput.path p) t none).1
      = Except.error (PyExc.catboxTimeoutError
          ("Upload request timed out after " ++ toString t ++ " seconds."))
    ∧ (upload_to_litterbox HttpOutcome.timeout input nm d t).1
      = Except.error (PyExc.catboxTimeoutError
          ("Upload to Litterbox timed out after " ++ toString t ++ " seconds."))
    ∧ (upload_album (some uh) (fun _ => HttpOutcome.timeout) (p :: rest) t c).1
      = Except.error (PyExc.catboxTimeoutError
          ("Upload request timed out after " ++ toString t ++ " seconds."))
    ∧ (upload_album_to_litterbox (fun _ => HttpOutcome.timeout) (p :: rest) t d c).1
      = Except.error (PyExc.catboxTimeoutError
          ("Upload to Litterbox timed out after " ++ toString t ++ " seconds."))
    ∧ (delete_files (some uh) HttpOutcome.timeout files t).1
      = Except.error PyExc.asyncioTimeout := by
  obtain ⟨c, rfl⟩ : ∃ k, c = k + 1 := ⟨c - 1, by omega⟩
  refine ⟨rfl, rfl, ?_, ?_, rfl⟩
  · have h1 : upload_file (some uh) HttpOutcome.timeout (FileInput.path p) t none
        = (Except.error (PyExc.catboxTimeoutError
            ("Upload request timed out after " ++ toString t ++ " seconds.")),
           [fileupload_request uh (python_basename p)]) := rfl
    simp only [upload_album, chunks, List.length_cons, chunksFuel,
      List.take_succ_cons, process_chunks, gather_uploads, h1, applyHandlersT,
      album_handler]
  · have h2 : upload_to_litterbox HttpOutcome.timeout (FileInput.path p) none d t
        = (Except.error (PyExc.catboxTimeoutError
            ("Upload to Litterbox timed out after " ++ toString t ++ " seconds.")),
           [litterbox_request none d]) := rfl
    simp only [upload_album_to_litterbox, chunks, List.length_cons, chunksFuel,
      List.take_succ_cons, process_chunks, gather_uploads, h2, applyHandlersT,
      album_handler]

/-- Witness for C7's amended theorem at a concrete input: one path, chunk
size 1, the request timing out. -/
theorem timeout_error_amended_witness :
    (1 : Nat) ≤ 1
    ∧ (upload_album (some "h") (fun _ => HttpOutcome.timeout) ["a.png"] 7 1).1
      = Except.error (PyExc.catboxTimeoutError
          ("Upload request timed out after " ++ toString 7 ++ " seconds.")) := by
  constructor
  · decide
  · exact (timeout_error_amended "h" "a.png" 7 (FileInput.path "x") none
      LitterboxDuration.H1 [] [] 1 (by decide)).2.2.1

/-- C8 (code bug): `create_album`'s `files` form field is
`" ".join(" ".join([shortcode...]))` — the outer join iterates over the
characters of the inner join's result, so for the single member URL
`https://files.catbox.moe/abc123` the field sent is `"a b c 1 2 3"`, not the
space-joined shortcode list `"abc123"` the claim describes (the return value
is indeed the trimmed response body). -/
theorem create_album_files_field_double_join :
    create_album (some "h") (HttpOutcome.ok 200 " sc \n")
        ["https://files.catbox.moe/abc123"] "T" ""
      = (Except.ok "sc",
         [[("reqtype", "createalbum"), ("userhash", "h"), ("title", "T"),
           ("desc", ""), ("files", "a b c 1 2 3")]])
    ∧ ("a b c 1 2 3" : String)
        ≠ join_space (["https://files.catbox.moe/abc123"].map get_shortcode_from_url) := by
  refine ⟨rfl, by decide⟩
